import Mathlib

/-!
Shallow embedding of the Andon alerting engine from `andon_system.py`
(classes `AndonTrigger`, `AlertRule`, `AndonSystem`).

Modelling conventions:
* Python runtime values appearing in telemetry records, trigger fields and
  JSON snapshots are modelled by `SValue` (numbers as exact rationals,
  strings, booleans, and `null` for Python `None`).
* `datetime` values are modelled by integers (one unit = one day, matching
  the `timedelta(days=...)` arithmetic in `get_trigger_history`);
  `isoformat`/`fromisoformat` round-tripping of an actual datetime is the
  identity on this model.
* A raising Python expression is modelled by `Option` (`none` = exception).
* A JSON snapshot record is a `RawRecord`: an outer `none` on a field means
  the key is absent (so `record[key]` raises `KeyError`); for timestamp
  fields the inner `Option Int` is `none` when `datetime.fromisoformat`
  would raise (a null or unparseable value).
-/

/-- A Python value as it occurs in sensor records and trigger fields. -/
inductive SValue where
  | num (q : ℚ)
  | str (s : String)
  | bool (b : Bool)
  | null
deriving DecidableEq

/-- Python truthiness: `0`, `""`, `False` and `None` are falsy. -/
def truthy : SValue → Bool
  | .num q => decide (q ≠ 0)
  | .str s => decide (s ≠ "")
  | .bool b => b
  | .null => false

/-- A telemetry record: a dict from string keys to Python values. -/
abbrev Record := List (String × SValue)

/-- `record[k]` without default: `none` models a `KeyError`. -/
def Record.lookup (r : Record) (k : String) : Option SValue :=
  (r.find? (fun p => p.1 == k)).map (·.2)

/-- `record.get(k, d)`: total dict access with default. -/
def Record.get (r : Record) (k : String) (d : SValue) : SValue :=
  (Record.lookup r k).getD d

/-- `record.get(k)`: dict access defaulting to `None`. -/
def Record.get1 (r : Record) (k : String) : SValue :=
  Record.get r k SValue.null

/-- Python `v > q` against a float threshold: numbers and booleans compare
(`True` counts as 1), strings and `None` raise `TypeError` (`none`). -/
def pyGT (v : SValue) (q : ℚ) : Option Bool :=
  match v with
  | .num x => some (decide (q < x))
  | .bool b => some (decide (q < (if b then (1 : ℚ) else 0)))
  | .str _ => none
  | .null => none

/-- Python `v < q` against a float threshold. -/
def pyLT (v : SValue) (q : ℚ) : Option Bool :=
  match v with
  | .num x => some (decide (x < q))
  | .bool b => some (decide ((if b then (1 : ℚ) else 0) < q))
  | .str _ => none
  | .null => none

/-- Python `v == s` against a string literal: total, never raises. -/
def pyEqStr (v : SValue) (s : String) : Bool :=
  match v with
  | .str s2 => s2 == s
  | _ => false

/-- Python `any(data.get(k, 0) > q for k in keys)`: lazy, short-circuits on
the first `True`, and an exception from a comparison propagates. -/
def anyGT (data : Record) (keys : List String) (q : ℚ) : Option Bool :=
  match keys with
  | [] => some false
  | k :: ks =>
    match pyGT (Record.get data k (SValue.num 0)) q with
    | none => none
    | some true => some true
    | some false => anyGT data ks q

/-- `AndonTrigger` (fields as set in `__init__`, `resolve`, import). -/
structure AndonTrigger where
  machine_id : SValue
  trigger_type : SValue
  severity : SValue
  description : SValue
  timestamp : Int
  resolved : Bool
  resolution_time : Option Int
  resolution_action : SValue
deriving DecidableEq

/-- `AndonTrigger.__init__` with an explicit timestamp (`timestamp or now`). -/
def AndonTrigger.make (m t s d : SValue) (ts : Int) : AndonTrigger :=
  ⟨m, t, s, d, ts, false, none, SValue.null⟩

/-- `AndonTrigger.resolve`: sets `resolved`, `resolution_time = now`,
`resolution_action = action`. -/
def AndonTrigger.resolve (tr : AndonTrigger) (action : SValue) (now : Int) : AndonTrigger :=
  { tr with resolved := true, resolution_time := some now, resolution_action := action }

/-- One record of the JSON snapshot produced by `AndonTrigger.to_dict` /
consumed by `import_triggers`. Outer `none` = key absent; for the two
timestamp fields the inner `none` = a value `fromisoformat` raises on
(null or a non-parseable string). -/
structure RawRecord where
  machine_id : Option SValue
  trigger_type : Option SValue
  severity : Option SValue
  description : Option SValue
  timestamp : Option (Option Int)
  resolved : Option SValue
  resolution_time : Option (Option Int)
  resolution_action : Option SValue
deriving DecidableEq

/-- `AndonTrigger.to_dict`: every key present; `resolution_time` serialises
to null (inner `none`) exactly when unset. -/
def AndonTrigger.to_dict (tr : AndonTrigger) : RawRecord :=
  ⟨some tr.machine_id, some tr.trigger_type, some tr.severity, some tr.description,
   some (some tr.timestamp), some (SValue.bool tr.resolved),
   some tr.resolution_time, some tr.resolution_action⟩

/-- The body of the `import_triggers` loop for one record: builds the
trigger, then (when `record['resolved']` is truthy) fills in the resolution
fields; `none` models any exception (missing key, bad timestamp). -/
def parseImportRecord (r : RawRecord) : Option AndonTrigger := do
  let m ← r.machine_id
  let t ← r.trigger_type
  let s ← r.severity
  let d ← r.description
  let tsRaw ← r.timestamp
  let ts ← tsRaw
  let tr := AndonTrigger.make m t s d ts
  let rv ← r.resolved
  if truthy rv then
    let rtRaw ← r.resolution_time
    let rt ← rtRaw
    let act ← r.resolution_action
    pure { tr with resolved := true, resolution_time := some rt, resolution_action := act }
  else
    pure tr

/-- `AlertRule`: the condition returns a Python value (`none` = the
predicate raised). -/
structure AlertRule where
  name : String
  condition : Record → Option SValue
  severity : String
  escalation_level : Nat
  description : String

/-- `AlertRule.evaluate` combined with the caller's `if rule.evaluate(data)`
test: an exception is caught and counts as `False`; a returned value is
judged by Python truthiness. -/
def AlertRule.evaluate (r : AlertRule) (data : Record) : Bool :=
  match r.condition data with
  | some v => truthy v
  | none => false

/-- The mutable state of `AndonSystem` (logging omitted: it has no
observable effect on the store). -/
structure AndonSystem where
  active_triggers : List AndonTrigger
  alert_rules : List AlertRule
  escalation_config : List (String × List (String × Bool))

/-- The `escalation_config` dict from `AndonSystem.__init__`. -/
def escalationConfig : List (String × List (String × Bool)) :=
  [("low", [("email", true), ("sms", false), ("dashboard", true)]),
   ("medium", [("email", true), ("sms", false), ("dashboard", true)]),
   ("high", [("email", true), ("sms", true), ("dashboard", true)]),
   ("critical", [("email", true), ("sms", true), ("dashboard", true), ("stop_machine", true)])]

/-- `AndonSystem.add_rule`: appends unless a rule with the name exists. -/
def add_rule (st : AndonSystem) (name : String) (condition : Record → Option SValue)
    (severity : String) (escalation_level : Nat) (description : String) : AndonSystem :=
  match st.alert_rules.find? (fun r => r.name == name) with
  | some _ => st
  | none =>
    { st with alert_rules :=
        st.alert_rules ++ [⟨name, condition, severity, escalation_level, description⟩] }

/-- `ALERT_THRESHOLDS['critical_vibration']` from `config.py`. -/
def criticalVibrationThreshold : ℚ := 4

/-- `ALERT_THRESHOLDS['high_temp']` from `config.py`. -/
def highTempThreshold : ℚ := 80

/-- `AndonSystem.setup_default_rules`: the seven default rules, in order. -/
def setup_default_rules (st : AndonSystem) : AndonSystem :=
  let st := add_rule st ("Critical Vibration")
    (fun data => (pyGT (Record.get data ("vibration_rms") (SValue.num 0)) criticalVibrationThreshold).map SValue.bool)
    ("critical") 4 ("Vibration exceeds critical threshold")
  let st := add_rule st ("High Temperature")
    (fun data => (anyGT data [("servo_temp"), ("oil_temp"), ("head_temp"), ("coolant_temp")] highTempThreshold).map SValue.bool)
    ("high") 3 ("Temperature exceeds safe operating limits")
  let st := add_rule st ("Current Spike")
    (fun data => (anyGT data [("motor_current"), ("spindle_current"), ("spindle_torque")] 15).map SValue.bool)
    ("high") 3 ("Motor current exceeds normal operating range")
  let st := add_rule st ("Quality Issue")
    (fun data => some (SValue.bool (pyEqStr (Record.get1 data ("quality_flag")) ("scrap") || pyEqStr (Record.get1 data ("quality_flag")) ("rework"))))
    ("medium") 2 ("Quality issue detected in production")
  let st := add_rule st ("Machine Fault")
    (fun data => some (SValue.bool (pyEqStr (Record.get1 data ("state")) ("fault"))))
    ("critical") 4 ("Machine fault detected")
  let st := add_rule st ("ML Anomaly")
    (fun data => some (Record.get data ("anomaly_detected") (SValue.bool false)))
    ("medium") 2 ("ML model detected anomalous behavior")
  let st := add_rule st ("Low RUL")
    (fun data => (pyLT (Record.get data ("rul_hours") (SValue.num 24)) 24).map SValue.bool)
    ("high") 3 ("Remaining useful life is critically low")
  st

/-- `AndonSystem.__init__`: empty trigger store, default rules. -/
def initSystem : AndonSystem :=
  setup_default_rules ⟨[], [], escalationConfig⟩

/-- The loop of `evaluate_sensor_data`, accumulating matched rules. -/
def evaluateLoop (data : Record) (rules : List AlertRule) (acc : List AlertRule) : List AlertRule :=
  match rules with
  | [] => acc
  | r :: rest =>
    if r.evaluate data then evaluateLoop data rest (acc ++ [r])
    else evaluateLoop data rest acc

/-- `AndonSystem.evaluate_sensor_data`. -/
def evaluate_sensor_data (st : AndonSystem) (data : Record) : List AlertRule :=
  evaluateLoop data st.alert_rules []

/-- `AndonSystem.create_andon_trigger`: appends a fresh trigger. -/
def create_andon_trigger (st : AndonSystem) (m t s d : SValue) (now : Int) :
    AndonSystem × AndonTrigger :=
  let tr := AndonTrigger.make m t s d now
  ({ st with active_triggers := st.active_triggers ++ [tr] }, tr)

/-- The match test of `get_active_trigger`: same machine, same type,
not resolved. -/
def matchKeyB (m t : SValue) (tr : AndonTrigger) : Bool :=
  decide (tr.machine_id = m) && decide (tr.trigger_type = t) && !tr.resolved

/-- `AndonSystem.get_active_trigger`: first unresolved trigger with the key. -/
def get_active_trigger (l : List AndonTrigger) (m t : SValue) : Option AndonTrigger :=
  l.find? (matchKeyB m t)

/-- The loop of `process_sensor_data` over the triggered rules. The result's
second component is `none` when `data['machine_id']` raised `KeyError`
(the exception propagates to the caller; triggers already created stay). -/
def processLoop (st : AndonSystem) (data : Record) (now : Int)
    (rules : List AlertRule) (acc : List AndonTrigger) :
    AndonSystem × Option (List AndonTrigger) :=
  match rules with
  | [] => (st, some acc)
  | rule :: rest =>
    match Record.lookup data ("machine_id") with
    | none => (st, none)
    | some mid =>
      match get_active_trigger st.active_triggers mid (SValue.str rule.name) with
      | some _ => processLoop st data now rest acc
      | none =>
        let p := create_andon_trigger st mid (SValue.str rule.name)
          (SValue.str rule.severity) (SValue.str rule.description) now
        processLoop p.1 data now rest (acc ++ [p.2])

/-- `AndonSystem.process_sensor_data`: evaluates the rules once, then runs
the creation loop (alert sending is an external side effect, see
`send_alerts`). -/
def process_sensor_data (st : AndonSystem) (data : Record) (now : Int) :
    AndonSystem × Option (List AndonTrigger) :=
  processLoop st data now (evaluate_sensor_data st data) []

/-- The store update of `resolve_trigger`: `get_active_trigger` returns the
first unresolved match and `trigger.resolve(action)` mutates it in place,
i.e. the first matching list entry is replaced. -/
def resolveList (l : List AndonTrigger) (m t a : SValue) (now : Int) :
    List AndonTrigger × Bool :=
  match l with
  | [] => ([], false)
  | tr :: rest =>
    if matchKeyB m t tr then (AndonTrigger.resolve tr a now :: rest, true)
    else
      let p := resolveList rest m t a now
      (tr :: p.1, p.2)

/-- `AndonSystem.resolve_trigger`. -/
def resolve_trigger (st : AndonSystem) (m t a : SValue) (now : Int) :
    AndonSystem × Bool :=
  let p := resolveList st.active_triggers m t a now
  ({ st with active_triggers := p.1 }, p.2)

/-- A notification channel invocation made by `send_alerts`. -/
inductive AlertAction where
  | email
  | sms
  | dashboard
  | stopMachine (machine_id : SValue)
deriving DecidableEq

/-- `dict.get(k, d)` on a channel-flag dict. -/
def dictGetB (cfg : List (String × Bool)) (k : String) (d : Bool) : Bool :=
  ((cfg.find? (fun p => p.1 == k)).map (·.2)).getD d

/-- `AndonSystem.send_alerts`: channel calls in source order
(email, sms, dashboard, stop_machine), driven by
`escalation_config.get(severity, {})` with the source's per-channel
defaults (`dashboard` defaults to true). -/
def send_alerts (st : AndonSystem) (tr : AndonTrigger) : List AlertAction :=
  let cfg : List (String × Bool) :=
    match tr.severity with
    | .str s => (((st.escalation_config.find? (fun p => p.1 == s)).map (·.2)).getD [])
    | _ => []
  (if dictGetB cfg ("email") false then [AlertAction.email] else []) ++
  (if dictGetB cfg ("sms") false then [AlertAction.sms] else []) ++
  (if dictGetB cfg ("dashboard") true then [AlertAction.dashboard] else []) ++
  (if dictGetB cfg ("stop_machine") false then [AlertAction.stopMachine tr.machine_id] else [])

/-- `AndonSystem.get_trigger_history`: triggers created within the window
(time in days; `cutoff = now - days`). -/
def get_trigger_history (st : AndonSystem) (machine_id : Option SValue)
    (days now : Int) : List AndonTrigger :=
  let cutoff := now - days
  match machine_id with
  | some m =>
    st.active_triggers.filter (fun tr => decide (tr.machine_id = m) && decide (cutoff ≤ tr.timestamp))
  | none =>
    st.active_triggers.filter (fun tr => decide (cutoff ≤ tr.timestamp))

/-- The summary dict built by `get_trigger_statistics`. -/
structure TriggerStats where
  total_triggers : Nat
  by_severity : List (SValue × Nat)
  by_machine : List (SValue × Nat)
  by_type : List (SValue × Nat)
  resolution_rate : ℚ

/-- `d[k] = d.get(k, 0) + 1` on an insertion-ordered dict. -/
def upsertCount (d : List (SValue × Nat)) (k : SValue) : List (SValue × Nat) :=
  match d with
  | [] => [(k, 1)]
  | (k2, n) :: rest =>
    if k2 = k then (k2, n + 1) :: rest else (k2, n) :: upsertCount rest k

/-- One counting pass of `get_trigger_statistics` over the history. -/
def countDict (history : List AndonTrigger) (f : AndonTrigger → SValue) :
    List (SValue × Nat) :=
  history.foldl (fun d tr => upsertCount d (f tr)) []

/-- `AndonSystem.get_trigger_statistics`. -/
def get_trigger_statistics (st : AndonSystem) (days now : Int) : TriggerStats :=
  let history := get_trigger_history st none days now
  let resolved_count := (history.filter (fun t => t.resolved)).length
  { total_triggers := history.length,
    by_severity := countDict history (·.severity),
    by_machine := countDict history (·.machine_id),
    by_type := countDict history (·.trigger_type),
    resolution_rate :=
      if history.isEmpty then 0 else (resolved_count : ℚ) / (history.length : ℚ) }

/-- `AndonSystem.export_triggers`: the snapshot is `to_dict` of every
trigger, in store order. -/
def export_triggers (st : AndonSystem) : List RawRecord :=
  st.active_triggers.map AndonTrigger.to_dict

/-- The loop of `import_triggers`: parse and append per record; the first
exception aborts the loop (caught and logged by the enclosing `try`),
keeping everything appended so far. -/
def importLoop (st : AndonSystem) (raws : List RawRecord) : AndonSystem :=
  match raws with
  | [] => st
  | r :: rest =>
    match parseImportRecord r with
    | some tr => importLoop { st with active_triggers := st.active_triggers ++ [tr] } rest
    | none => st

/-- `AndonSystem.import_triggers` on an already-loaded JSON list. -/
def import_triggers (st : AndonSystem) (raws : List RawRecord) : AndonSystem :=
  importLoop st raws

/-- The triggers a snapshot contributes: the parses of the records strictly
before the first malformed one. -/
def importedList (raws : List RawRecord) : List AndonTrigger :=
  match raws with
  | [] => []
  | r :: rest =>
    match parseImportRecord r with
    | some tr => tr :: importedList rest
    | none => []

/-- The store-mutating public operations named by the invariant claim. -/
inductive Op where
  | procData (data : Record) (now : Int)
  | resolveOp (m t a : SValue) (now : Int)
  | importOp (raws : List RawRecord)
  | createOp (m t s d : SValue) (now : Int)

/-- Apply one operation to the system state. -/
def applyOp (st : AndonSystem) : Op → AndonSystem
  | .procData data now => (process_sensor_data st data now).1
  | .resolveOp m t a now => (resolve_trigger st m t a now).1
  | .importOp raws => import_triggers st raws
  | .createOp m t s d now => (create_andon_trigger st m t s d now).1

/-- Apply a sequence of operations from a starting state. -/
def applyOps (st : AndonSystem) (ops : List Op) : AndonSystem :=
  ops.foldl applyOp st

/-- Number of unresolved triggers in the store with a given key. -/
def countUnresolvedKey (l : List AndonTrigger) (m t : SValue) : Nat :=
  l.countP (matchKeyB m t)

/-- The central invariant: at most one unresolved trigger per key. -/
def atMostOneUnresolved (st : AndonSystem) : Prop :=
  ∀ m t, countUnresolvedKey st.active_triggers m t ≤ 1

/-- Whether an operation is a `process_sensor_data` or `resolve_trigger`
call (the two operations that do preserve the invariant). -/
def Op.isProcOrResolve : Op → Bool
  | .procData _ _ => true
  | .resolveOp _ _ _ _ => true
  | _ => false

/-- Sum of the counter values of a statistics dict. -/
def sumVals (d : List (SValue × Nat)) : Nat := (d.map (·.2)).sum

/-- Well-formedness of a stored trigger, as guaranteed by `resolve` and by
`import_triggers` themselves: a resolved trigger carries a resolution time,
an unresolved one carries neither resolution time nor action. -/
def WFTrigger (tr : AndonTrigger) : Prop :=
  (tr.resolved = true → tr.resolution_time ≠ none) ∧
  (tr.resolved = false →
    tr.resolution_time = none ∧ tr.resolution_action = SValue.null)

instance : DecidablePred WFTrigger := fun tr => by
  unfold WFTrigger
  infer_instance

/-- The telemetry record of spec Scenario A. -/
def scenarioRecord : Record :=
  [(("machine_id"), SValue.str ("VF2_01")), (("vibration_rms"), SValue.num 5)]

/-- The trigger Scenario A creates (timestamp 0). -/
def vf2Trigger : AndonTrigger :=
  ⟨SValue.str ("VF2_01"), SValue.str ("Critical Vibration"), SValue.str ("critical"),
   SValue.str ("Vibration exceeds critical threshold"), 0, false, none, SValue.null⟩

/-- A record without a machine identifier that still trips a rule. -/
def noMachineRecord : Record := [(("vibration_rms"), SValue.num 5)]

/-- A well-formed snapshot record. -/
def goodRaw : RawRecord :=
  AndonTrigger.to_dict (AndonTrigger.make (SValue.str ("M")) (SValue.str ("T"))
    (SValue.str ("low")) (SValue.str ("d")) 0)

/-- A malformed snapshot record: the `machine_id` key is missing, so
the per-record loop raises `KeyError` on it. -/
def badRaw : RawRecord := { goodRaw with machine_id := none }

/-- A trigger marked resolved but with no resolution timestamp: exporting it
produces `resolution_time: null`, which `fromisoformat` raises on. -/
def badTr : AndonTrigger :=
  ⟨SValue.str ("M"), SValue.str ("T"), SValue.str ("low"), SValue.str ("d"),
   0, true, none, SValue.null⟩

/-- A store holding only `badTr`. -/
def badStore : AndonSystem := { initSystem with active_triggers := [badTr] }

/-- A store with a single unresolved trigger for key `(M, T)`. -/
def oneActiveStore : AndonSystem :=
  { initSystem with active_triggers :=
      [AndonTrigger.make (SValue.str ("M")) (SValue.str ("T"))
        (SValue.str ("low")) (SValue.str ("d")) 0] }

/-- A well-formed non-empty store: one unresolved trigger and one resolved
trigger with its resolution time and action set. -/
def wfStore : AndonSystem :=
  { initSystem with active_triggers :=
      [AndonTrigger.make (SValue.str ("M")) (SValue.str ("T"))
        (SValue.str ("low")) (SValue.str ("d")) 0,
       AndonTrigger.resolve (AndonTrigger.make (SValue.str ("M2")) (SValue.str ("T2"))
        (SValue.str ("high")) (SValue.str ("d2")) 1) (SValue.str ("fixed")) 2] }

/-! ### Helper lemmas -/

theorem find?_append_left {α} {p : α → Bool} {l1 : List α} {x : α}
    (l2 : List α) (h : l1.find? p = some x) : (l1 ++ l2).find? p = some x := by
  induction l1 with
  | nil => simp [List.find?] at h
  | cons a l ih =>
    cases hp : p a with
    | true =>
      simp only [List.cons_append, List.find?_cons, hp] at h ⊢
      exact h
    | false =>
      simp only [List.cons_append, List.find?_cons, hp] at h ⊢
      exact ih h

theorem find?_append_none {α} {p : α → Bool} {l1 : List α}
    (l2 : List α) (h : l1.find? p = none) : (l1 ++ l2).find? p = l2.find? p := by
  induction l1 with
  | nil => simp
  | cons a l ih =>
    cases hp : p a with
    | true => simp [List.find?_cons, hp] at h
    | false =>
      simp only [List.cons_append, List.find?_cons, hp] at h ⊢
      exact ih h

theorem matchKeyB_eq_true {m t : SValue} {tr : AndonTrigger} :
    matchKeyB m t tr = true ↔
      tr.machine_id = m ∧ tr.trigger_type = t ∧ tr.resolved = false := by
  simp [matchKeyB, Bool.and_eq_true, decide_eq_true_iff, Bool.not_eq_true',
    and_assoc]

theorem matchKeyB_resolve (m t a : SValue) (now : Int) (tr : AndonTrigger) :
    matchKeyB m t (AndonTrigger.resolve tr a now) = false := by
  simp [matchKeyB, AndonTrigger.resolve]

theorem matchKeyB_make (m t mid tyn s d : SValue) (now : Int) :
    matchKeyB m t (AndonTrigger.make mid tyn s d now) =
      (decide (mid = m) && decide (tyn = t)) := by
  simp [matchKeyB, AndonTrigger.make]

theorem countUnresolvedKey_append (l1 l2 : List AndonTrigger) (m t : SValue) :
    countUnresolvedKey (l1 ++ l2) m t =
      countUnresolvedKey l1 m t + countUnresolvedKey l2 m t := by
  simp [countUnresolvedKey, List.countP_append]

theorem countUnresolvedKey_eq_zero_of_find?_none {l : List AndonTrigger} {m t : SValue}
    (h : get_active_trigger l m t = none) : countUnresolvedKey l m t = 0 := by
  rw [countUnresolvedKey, List.countP_eq_zero]
  intro a ha
  have := List.find?_eq_none.mp h a ha
  simpa using this

theorem processLoop_alert_rules (data : Record) (now : Int) :
    ∀ (rules : List AlertRule) (st : AndonSystem) (acc : List AndonTrigger),
      (processLoop st data now rules acc).1.alert_rules = st.alert_rules := by
  intro rules
  induction rules with
  | nil => intro st acc; rfl
  | cons rule rest ih =>
    intro st acc
    cases h1 : Record.lookup data ("machine_id") with
    | none => rw [processLoop]; simp only [h1]
    | some mid =>
      cases h2 : get_active_trigger st.active_triggers mid (SValue.str rule.name) with
      | some tr => rw [processLoop]; simp only [h1, h2]; exact ih st acc
      | none => rw [processLoop]; simp only [h1, h2]; exact ih _ _

theorem processLoop_triggers_extend (data : Record) (now : Int) :
    ∀ (rules : List AlertRule) (st : AndonSystem) (acc : List AndonTrigger),
      ∃ ext, (processLoop st data now rules acc).1.active_triggers =
        st.active_triggers ++ ext := by
  intro rules
  induction rules with
  | nil => intro st acc; exact ⟨[], by simp [processLoop]⟩
  | cons rule rest ih =>
    intro st acc
    cases h1 : Record.lookup data ("machine_id") with
    | none => exact ⟨[], by rw [processLoop]; simp only [h1]; simp⟩
    | some mid =>
      cases h2 : get_active_trigger st.active_triggers mid (SValue.str rule.name) with
      | some tr => rw [processLoop]; simp only [h1, h2]; exact ih st acc
      | none =>
        rw [processLoop]; simp only [h1, h2]
        obtain ⟨ext, hext⟩ := ih
          { st with active_triggers :=
              st.active_triggers ++ [AndonTrigger.make mid (SValue.str rule.name)
                (SValue.str rule.severity) (SValue.str rule.description) now] }
          (acc ++ [AndonTrigger.make mid (SValue.str rule.name)
            (SValue.str rule.severity) (SValue.str rule.description) now])
        refine ⟨AndonTrigger.make mid (SValue.str rule.name)
          (SValue.str rule.severity) (SValue.str rule.description) now :: ext, ?_⟩
        simp only [create_andon_trigger]
        rw [hext]
        simp [List.append_assoc]

theorem processLoop_inv (data : Record) (now : Int) :
    ∀ (rules : List AlertRule) (st : AndonSystem) (acc : List AndonTrigger),
      (∀ m t, countUnresolvedKey st.active_triggers m t ≤ 1) →
      ∀ m t, countUnresolvedKey (processLoop st data now rules acc).1.active_triggers m t ≤ 1 := by
  intro rules
  induction rules with
  | nil => intro st acc h m t; simpa [processLoop] using h m t
  | cons rule rest ih =>
    intro st acc h m t
    cases h1 : Record.lookup data ("machine_id") with
    | none => rw [processLoop]; simp only [h1]; exact h m t
    | some mid =>
      cases h2 : get_active_trigger st.active_triggers mid (SValue.str rule.name) with
      | some tr => rw [processLoop]; simp only [h1, h2]; exact ih st acc h m t
      | none =>
        rw [processLoop]; simp only [h1, h2]
        refine ih _ _ ?_ m t
        intro m2 t2
        simp only [create_andon_trigger]
        rw [countUnresolvedKey_append]
        have hsingle : countUnresolvedKey
            [AndonTrigger.make mid (SValue.str rule.name)
              (SValue.str rule.severity) (SValue.str rule.description) now] m2 t2 =
            if mid = m2 ∧ SValue.str rule.name = t2 then 1 else 0 := by
          simp only [countUnresolvedKey, List.countP, List.countP.go, matchKeyB_make]
          by_cases hm : mid = m2 <;> by_cases ht : SValue.str rule.name = t2 <;>
            simp [hm, ht]
        rw [hsingle]
        by_cases hk : mid = m2 ∧ SValue.str rule.name = t2
        · have h0 : countUnresolvedKey st.active_triggers m2 t2 = 0 := by
            rw [← hk.1, ← hk.2]
            exact countUnresolvedKey_eq_zero_of_find?_none h2
          simp [hk, h0]
        · simpa [hk] using h m2 t2

theorem resolveList_snd (l : List AndonTrigger) (m t a : SValue) (now : Int) :
    (resolveList l m t a now).2 = (l.find? (matchKeyB m t)).isSome := by
  induction l with
  | nil => simp [resolveList]
  | cons tr rest ih =>
    cases hp : matchKeyB m t tr with
    | true => simp [resolveList, hp, List.find?_cons]
    | false => simp [resolveList, hp, List.find?_cons, ih]

theorem resolveList_none {l : List AndonTrigger} {m t : SValue} (a : SValue) (now : Int)
    (h : l.find? (matchKeyB m t) = none) : resolveList l m t a now = (l, false) := by
  induction l with
  | nil => simp [resolveList]
  | cons tr rest ih =>
    cases hp : matchKeyB m t tr with
    | true => simp [List.find?_cons, hp] at h
    | false =>
      simp only [List.find?_cons, hp] at h
      simp [resolveList, hp, ih h]

theorem resolveList_found {m t : SValue} (a : SValue) (now : Int) :
    ∀ (pre : List AndonTrigger) (tr : AndonTrigger) (post : List AndonTrigger),
      (∀ x ∈ pre, matchKeyB m t x = false) → matchKeyB m t tr = true →
      resolveList (pre ++ tr :: post) m t a now =
        (pre ++ AndonTrigger.resolve tr a now :: post, true) := by
  intro pre
  induction pre with
  | nil =>
    intro tr post hpre htr
    simp [resolveList, htr]
  | cons x xs ih =>
    intro tr post hpre htr
    have hx : matchKeyB m t x = false := hpre x (by simp)
    have hrec := ih tr post (fun y hy => hpre y (List.mem_cons_of_mem x hy)) htr
    simp [resolveList, hx, hrec]

theorem resolveList_countP_le (l : List AndonTrigger) (m t a m2 t2 : SValue) (now : Int) :
    countUnresolvedKey (resolveList l m t a now).1 m2 t2 ≤ countUnresolvedKey l m2 t2 := by
  induction l with
  | nil => simp [resolveList]
  | cons tr rest ih =>
    cases hp : matchKeyB m t tr with
    | true =>
      have h1 : (resolveList (tr :: rest) m t a now).1 =
          AndonTrigger.resolve tr a now :: rest := by
        simp [resolveList, hp]
      rw [h1]
      simp only [countUnresolvedKey, List.countP_cons, matchKeyB_resolve]
      simp only [if_neg (by simp : ¬(false = true))]
      omega
    | false =>
      have h1 : (resolveList (tr :: rest) m t a now).1 =
          tr :: (resolveList rest m t a now).1 := by
        simp [resolveList, hp]
      rw [h1]
      simp only [countUnresolvedKey, List.countP_cons] at ih ⊢
      omega

theorem resolveList_countP_eq (l : List AndonTrigger) (m t a : SValue) (now : Int) :
    countUnresolvedKey (resolveList l m t a now).1 m t
      + (if (resolveList l m t a now).2 then 1 else 0) = countUnresolvedKey l m t := by
  induction l with
  | nil => simp [resolveList, countUnresolvedKey]
  | cons tr rest ih =>
    cases hp : matchKeyB m t tr with
    | true =>
      have h1 : resolveList (tr :: rest) m t a now =
          (AndonTrigger.resolve tr a now :: rest, true) := by
        simp [resolveList, hp]
      rw [h1]
      simp [countUnresolvedKey, List.countP_cons, matchKeyB_resolve, hp]
    | false =>
      have h1 : resolveList (tr :: rest) m t a now =
          (tr :: (resolveList rest m t a now).1, (resolveList rest m t a now).2) := by
        simp [resolveList, hp]
      rw [h1]
      simp only [countUnresolvedKey, List.countP_cons, hp] at ih ⊢
      simp only [if_neg (by simp : ¬(false = true))]
      omega

theorem importLoop_triggers : ∀ (raws : List RawRecord) (st : AndonSystem),
    (importLoop st raws).active_triggers = st.active_triggers ++ importedList raws := by
  intro raws
  induction raws with
  | nil => intro st; simp [importLoop, importedList]
  | cons r rest ih =>
    intro st
    cases hp : parseImportRecord r with
    | some tr =>
      rw [importLoop]
      simp only [hp]
      rw [importedList]
      simp only [hp]
      rw [ih]
      simp
    | none =>
      rw [importLoop]
      simp only [hp]
      rw [importedList]
      simp only [hp]
      simp

theorem evaluateLoop_eq_filter (data : Record) :
    ∀ (rules : List AlertRule) (acc : List AlertRule),
      evaluateLoop data rules acc = acc ++ rules.filter (fun r => r.evaluate data) := by
  intro rules
  induction rules with
  | nil => intro acc; simp [evaluateLoop]
  | cons r rest ih =>
    intro acc
    cases hp : r.evaluate data with
    | true =>
      rw [evaluateLoop]
      simp only [hp, if_pos rfl]
      rw [ih]
      simp [List.filter_cons, hp]
    | false =>
      simp [evaluateLoop, hp, List.filter_cons, ih]

theorem sumVals_upsertCount (d : List (SValue × Nat)) (k : SValue) :
    sumVals (upsertCount d k) = sumVals d + 1 := by
  induction d with
  | nil => simp [upsertCount, sumVals]
  | cons p rest ih =>
    obtain ⟨k2, n⟩ := p
    by_cases hk : k2 = k
    · simp only [upsertCount, if_pos hk, sumVals, List.map_cons, List.sum_cons]
      omega
    · simp only [upsertCount, if_neg hk, sumVals, List.map_cons, List.sum_cons] at ih ⊢
      omega

theorem sumVals_countFold (f : AndonTrigger → SValue) :
    ∀ (h : List AndonTrigger) (d : List (SValue × Nat)),
      sumVals (h.foldl (fun d tr => upsertCount d (f tr)) d) = sumVals d + h.length := by
  intro h
  induction h with
  | nil => intro d; simp
  | cons tr rest ih =>
    intro d
    simp only [List.foldl_cons, List.length_cons]
    rw [ih, sumVals_upsertCount]
    omega

theorem sumVals_countDict (history : List AndonTrigger) (f : AndonTrigger → SValue) :
    sumVals (countDict history f) = history.length := by
  rw [countDict, sumVals_countFold]
  simp [sumVals]

theorem evaluate_sensor_data_rules_eq {st st2 : AndonSystem}
    (h : st.alert_rules = st2.alert_rules) (data : Record) :
    evaluate_sensor_data st data = evaluate_sensor_data st2 data := by
  simp [evaluate_sensor_data, h]

theorem add_rule_existing {st : AndonSystem} {name : String}
    (h : ∃ r ∈ st.alert_rules, r.name = name) (condition : Record → Option SValue)
    (severity : String) (esc : Nat) (desc : String) :
    add_rule st name condition severity esc desc = st := by
  cases hf : st.alert_rules.find? (fun r => r.name == name) with
  | some r => rw [add_rule]; simp only [hf]
  | none =>
    exfalso
    obtain ⟨r, hr, hrn⟩ := h
    have := List.find?_eq_none.mp hf r hr
    simp [hrn] at this

theorem add_rule_fresh {st : AndonSystem} {name : String}
    (h : ∀ r ∈ st.alert_rules, r.name ≠ name) (condition : Record → Option SValue)
    (severity : String) (esc : Nat) (desc : String) :
    add_rule st name condition severity esc desc =
      { st with alert_rules :=
          st.alert_rules ++ [⟨name, condition, severity, esc, desc⟩] } := by
  have hf : st.alert_rules.find? (fun r => r.name == name) = none :=
    List.find?_eq_none.mpr (fun r hr => by simp [h r hr])
  rw [add_rule]; simp only [hf]

theorem parseImportRecord_to_dict {tr : AndonTrigger}
    (h1 : tr.resolved = true → tr.resolution_time ≠ none)
    (h2 : tr.resolved = false →
      tr.resolution_time = none ∧ tr.resolution_action = SValue.null) :
    parseImportRecord (AndonTrigger.to_dict tr) = some tr := by
  obtain ⟨m, t, s, d, ts, rv, rt, ra⟩ := tr
  dsimp only at h1 h2
  cases rv with
  | false =>
    obtain ⟨hrt, hra⟩ := h2 rfl
    subst hrt
    subst hra
    simp [parseImportRecord, AndonTrigger.to_dict, AndonTrigger.make, truthy]
  | true =>
    have h3 := h1 rfl
    cases hrt : rt with
    | none => exact absurd hrt h3
    | some n =>
      subst hrt
      simp [parseImportRecord, AndonTrigger.to_dict, AndonTrigger.make, truthy]

theorem importedList_map_to_dict :
    ∀ (l : List AndonTrigger),
      (∀ tr ∈ l, parseImportRecord (AndonTrigger.to_dict tr) = some tr) →
      importedList (l.map AndonTrigger.to_dict) = l := by
  intro l
  induction l with
  | nil => intro h; simp [importedList]
  | cons tr rest ih =>
    intro h
    rw [List.map_cons, importedList]
    simp only [h tr (by simp)]
    rw [ih (fun x hx => h x (List.mem_cons_of_mem tr hx))]

theorem processLoop_active_after (data : Record) (now : Int) (v : SValue)
    (hv : Record.lookup data ("machine_id") = some v) :
    ∀ (rules : List AlertRule) (st : AndonSystem) (acc : List AndonTrigger),
      ∀ r ∈ rules,
        (get_active_trigger (processLoop st data now rules acc).1.active_triggers v
          (SValue.str r.name)).isSome = true := by
  intro rules
  induction rules with
  | nil => intro st acc r hr; simp at hr
  | cons rule rest ih =>
    intro st acc r hr
    rw [processLoop]
    simp only [hv]
    cases h2 : get_active_trigger st.active_triggers v (SValue.str rule.name) with
    | some tr0 =>
      simp only [h2]
      rcases List.mem_cons.mp hr with hr1 | hr2
      · subst hr1
        obtain ⟨ext, hext⟩ := processLoop_triggers_extend data now rest st acc
        unfold get_active_trigger at h2 ⊢
        rw [hext, find?_append_left ext h2]
        rfl
      · exact ih st acc r hr2
    | none =>
      simp only [h2, create_andon_trigger]
      rcases List.mem_cons.mp hr with hr1 | hr2
      · subst hr1
        have hfound : get_active_trigger
            (st.active_triggers ++ [AndonTrigger.make v (SValue.str r.name)
              (SValue.str r.severity) (SValue.str r.description) now]) v
            (SValue.str r.name) =
            some (AndonTrigger.make v (SValue.str r.name)
              (SValue.str r.severity) (SValue.str r.description) now) := by
          unfold get_active_trigger at h2 ⊢
          rw [find?_append_none _ h2]
          simp [List.find?_cons, matchKeyB_make]
        obtain ⟨ext, hext⟩ := processLoop_triggers_extend data now rest
          { st with active_triggers :=
              st.active_triggers ++ [AndonTrigger.make v (SValue.str r.name)
                (SValue.str r.severity) (SValue.str r.description) now] }
          (acc ++ [AndonTrigger.make v (SValue.str r.name)
            (SValue.str r.severity) (SValue.str r.description) now])
        unfold get_active_trigger at hfound ⊢
        rw [hext]
        dsimp only
        rw [find?_append_left ext hfound]
        rfl
      · exact ih _ _ r hr2

theorem processLoop_noop (data : Record) (now : Int) (v : SValue)
    (hv : Record.lookup data ("machine_id") = some v) :
    ∀ (rules : List AlertRule) (st : AndonSystem) (acc : List AndonTrigger),
      (∀ r ∈ rules,
        (get_active_trigger st.active_triggers v (SValue.str r.name)).isSome = true) →
      processLoop st data now rules acc = (st, some acc) := by
  intro rules
  induction rules with
  | nil => intro st acc h; rw [processLoop]
  | cons rule rest ih =>
    intro st acc h
    rw [processLoop]
    simp only [hv]
    have h1 := h rule (by simp)
    cases h2 : get_active_trigger st.active_triggers v (SValue.str rule.name) with
    | none => rw [h2] at h1; simp at h1
    | some tr =>
      simp only [h2]
      exact ih st acc (fun r hr => h r (List.mem_cons_of_mem rule hr))

/-! ### Claim theorems -/

/-- C2 (counterexample): the claim says a malformed record makes import
reject the whole input and leave the trigger set unchanged; here the input
`[goodRaw, badRaw]` contains the malformed record `badRaw`, yet importing it
into the empty initial store changes the trigger set (the first record is
appended before the failure). -/
theorem spec_C2_counterexample :
    (∃ r ∈ [goodRaw, badRaw], parseImportRecord r = none) ∧
      (import_triggers initSystem [goodRaw, badRaw]).active_triggers ≠
        initSystem.active_triggers := by
  constructor
  · exact ⟨badRaw, by simp, by decide⟩
  · decide

/-- C2 (amended): `import_triggers` is not atomic; for every store and
input it appends exactly the parses of the records strictly before the
first malformed one (everything on success), leaving those appends in
place when a later record is malformed, and reports no record position. -/
theorem spec_C2_import_appends_parsed_records (st : AndonSystem) (raws : List RawRecord) :
    (import_triggers st raws).active_triggers =
      st.active_triggers ++ importedList raws :=
  importLoop_triggers raws st

/-- C3 (counterexample): the round-trip claim fails for the non-empty store
`badStore`, whose single trigger is resolved but has no resolution
timestamp: its export serialises `resolution_time` as null, so the import
raises and drops the trigger. -/
theorem spec_C3_counterexample :
    badStore.active_triggers ≠ [] ∧
      (import_triggers initSystem (export_triggers badStore)).active_triggers ≠
        badStore.active_triggers := by
  exact ⟨by decide, by decide⟩

/-- C3 (amended): for every non-empty store whose triggers are well formed
(resolved triggers carry a resolution time; unresolved ones carry neither
resolution time nor action — exactly what `resolve_trigger` and
`import_triggers` themselves produce), importing the export into the empty
initial store reproduces the trigger list exactly, with every field
(machine, type, severity, description, creation time, resolved flag,
resolution time, resolution action) preserved. -/
theorem spec_C3_roundtrip (st : AndonSystem)
    (hwf : ∀ tr ∈ st.active_triggers, WFTrigger tr)
    (hne : st.active_triggers ≠ []) :
    (import_triggers initSystem (export_triggers st)).active_triggers =
      st.active_triggers := by
  have h1 : (import_triggers initSystem (export_triggers st)).active_triggers =
      initSystem.active_triggers ++ importedList (export_triggers st) :=
    importLoop_triggers _ _
  have h0 : initSystem.active_triggers = [] := rfl
  rw [h1, h0, List.nil_append, export_triggers]
  exact importedList_map_to_dict _ (fun tr htr =>
    parseImportRecord_to_dict (hwf tr htr).1 (hwf tr htr).2)

/-- C3 (witness): the round-trip theorem applied to the concrete,
well-formed, non-empty store `wfStore`. -/
theorem spec_C3_witness :
    (∀ tr ∈ wfStore.active_triggers, WFTrigger tr) ∧
      wfStore.active_triggers ≠ [] ∧
      (import_triggers initSystem (export_triggers wfStore)).active_triggers =
        wfStore.active_triggers :=
  ⟨by decide, by decide, spec_C3_roundtrip wfStore (by decide) (by decide)⟩

/-- C4: `evaluate_sensor_data` returns exactly the rules whose predicate is
(truthily) satisfied on the record, in registration order (it equals the
order-preserving filter of the rule list); a rule whose predicate raised
(`condition data = none`) is excluded, and evaluation is total. -/
theorem spec_C4_evaluate_is_filter (st : AndonSystem) (data : Record) :
    evaluate_sensor_data st data =
      st.alert_rules.filter (fun r => r.evaluate data) ∧
    (∀ r ∈ st.alert_rules, r.condition data = none →
      r ∉ evaluate_sensor_data st data) ∧
    (∀ r, r ∈ evaluate_sensor_data st data ↔
      r ∈ st.alert_rules ∧ r.evaluate data = true) := by
  have hfil : evaluate_sensor_data st data =
      st.alert_rules.filter (fun r => r.evaluate data) := by
    rw [evaluate_sensor_data, evaluateLoop_eq_filter]
    simp
  refine ⟨hfil, ?_, ?_⟩
  · intro r hr hcond hmem
    rw [hfil] at hmem
    have hev := (List.mem_filter.mp hmem).2
    simp [AlertRule.evaluate, hcond] at hev
  · intro r
    rw [hfil, List.mem_filter]

/-- C4 (witness): the filter characterisation instantiated at the default
rule set and the Scenario A record. -/
theorem spec_C4_witness :
    evaluate_sensor_data initSystem scenarioRecord =
      initSystem.alert_rules.filter (fun r => r.evaluate scenarioRecord) :=
  (spec_C4_evaluate_is_filter initSystem scenarioRecord).1

/-- C5: `add_rule` is idempotent by name — with an already-present name the
whole system (rule list included, so no overwrite of any field) is
unchanged and no error occurs; with a fresh name exactly one rule is
appended and the trigger store is untouched. -/
theorem spec_C5_add_rule_idempotent (st : AndonSystem) (name : String)
    (condition : Record → Option SValue) (severity : String) (esc : Nat)
    (desc : String) :
    ((∃ r ∈ st.alert_rules, r.name = name) →
      add_rule st name condition severity esc desc = st) ∧
    ((∀ r ∈ st.alert_rules, r.name ≠ name) →
      (add_rule st name condition severity esc desc).alert_rules =
        st.alert_rules ++ [⟨name, condition, severity, esc, desc⟩] ∧
      (add_rule st name condition severity esc desc).active_triggers =
        st.active_triggers) := by
  constructor
  · intro h
    exact add_rule_existing h condition severity esc desc
  · intro h
    rw [add_rule_fresh h condition severity esc desc]
    exact ⟨rfl, rfl⟩

/-- C5 (witness): re-registering the existing name Critical Vibration with
different fields leaves the system unchanged. -/
theorem spec_C5_witness :
    add_rule initSystem ("Critical Vibration") (fun _ => some SValue.null)
      ("low") 1 ("dup") = initSystem :=
  (spec_C5_add_rule_idempotent initSystem ("Critical Vibration")
    (fun _ => some SValue.null) ("low") 1 ("dup")).1 (by decide)

/-- C9: Scenario A — processing the record with machine VF2_01 and
vibration 5.0 against the default rules creates exactly one new trigger,
with severity critical, and dispatching it invokes email, SMS, dashboard
and the machine-stop call for VF2_01, in that order. -/
theorem spec_C9_scenarioA :
    (process_sensor_data initSystem scenarioRecord 0).2 = some [vf2Trigger] ∧
    vf2Trigger.severity = SValue.str ("critical") ∧
    send_alerts initSystem vf2Trigger =
      [AlertAction.email, AlertAction.sms, AlertAction.dashboard,
       AlertAction.stopMachine (SValue.str ("VF2_01"))] := by
  exact ⟨by decide, rfl, by decide⟩

/-- C10: `process_sensor_data` reads `data['machine_id']` without a
default: a record lacking the key that matches at least one rule makes the
call fail with a key-lookup error (modelled as `none`, store unchanged),
while such a record matching no rule returns the empty list. -/
theorem spec_C10_missing_machine_id (st : AndonSystem) (data : Record)
    (now : Int) (hmiss : Record.lookup data ("machine_id") = none) :
    (evaluate_sensor_data st data ≠ [] →
      process_sensor_data st data now = (st, none)) ∧
    (evaluate_sensor_data st data = [] →
      process_sensor_data st data now = (st, some [])) := by
  constructor
  · intro hne
    rw [process_sensor_data]
    cases hev : evaluate_sensor_data st data with
    | nil => exact absurd hev hne
    | cons r rest =>
      rw [processLoop]
      simp only [hmiss]
  · intro hni
    rw [process_sensor_data, hni]
    rfl

/-- C10 (witness): the record with vibration 5.0 but no machine identifier
matches the Critical Vibration rule, and processing it fails with the
key-lookup error, leaving the store unchanged. -/
theorem spec_C10_witness :
    Record.lookup noMachineRecord ("machine_id") = none ∧
    evaluate_sensor_data initSystem noMachineRecord ≠ [] ∧
    process_sensor_data initSystem noMachineRecord 0 = (initSystem, none) := by
  have hlen : (evaluate_sensor_data initSystem noMachineRecord).length = 1 := rfl
  have hne : evaluate_sensor_data initSystem noMachineRecord ≠ [] := by
    intro h
    rw [h] at hlen
    simp at hlen
  exact ⟨by decide, hne,
    (spec_C10_missing_machine_id initSystem noMachineRecord 0 (by decide)).1 hne⟩

/-- C6: `resolve_trigger` returns true exactly when an unresolved trigger
with the key exists; when none exists it returns false and leaves the
system unchanged; when one exists, the first such trigger is replaced by
its resolved version (resolved flag set, resolution time set to now,
resolution action set to the given action); and if the store held at most
one unresolved trigger for the key, a second resolve returns false. -/
theorem spec_C6_resolve_correct (st : AndonSystem) (m t a : SValue) (now : Int) :
    ((resolve_trigger st m t a now).2 = true ↔
      (get_active_trigger st.active_triggers m t).isSome = true) ∧
    (get_active_trigger st.active_triggers m t = none →
      resolve_trigger st m t a now = (st, false)) ∧
    (∀ pre tr post, st.active_triggers = pre ++ tr :: post →
      (∀ x ∈ pre, matchKeyB m t x = false) → matchKeyB m t tr = true →
      (resolve_trigger st m t a now).1.active_triggers =
        pre ++ AndonTrigger.resolve tr a now :: post) ∧
    (∀ tr : AndonTrigger, (AndonTrigger.resolve tr a now).resolved = true ∧
      (AndonTrigger.resolve tr a now).resolution_time = some now ∧
      (AndonTrigger.resolve tr a now).resolution_action = a) ∧
    (countUnresolvedKey st.active_triggers m t ≤ 1 →
      (resolve_trigger (resolve_trigger st m t a now).1 m t a now).2 = false) := by
  refine ⟨?_, ?_, ?_, ?_, ?_⟩
  · simp [resolve_trigger, resolveList_snd, get_active_trigger]
  · intro h
    rw [get_active_trigger] at h
    have h2 := resolveList_none a now h
    simp [resolve_trigger, h2]
  · intro pre tr post hsplit hpre htr
    simp only [resolve_trigger]
    rw [hsplit, resolveList_found a now pre tr post hpre htr]
  · intro tr
    exact ⟨rfl, rfl, rfl⟩
  · intro hle
    cases hfind : get_active_trigger st.active_triggers m t with
    | none =>
      rw [get_active_trigger] at hfind
      have h2 := resolveList_none a now hfind
      simp [resolve_trigger, h2, resolveList_snd, hfind]
    | some tr0 =>
      have heq := resolveList_countP_eq st.active_triggers m t a now
      have hsnd : (resolveList st.active_triggers m t a now).2 = true := by
        rw [resolveList_snd]
        rw [get_active_trigger] at hfind
        simp [hfind]
      rw [hsnd] at heq
      simp at heq
      have hc0 : countUnresolvedKey (resolveList st.active_triggers m t a now).1 m t = 0 := by
        omega
      have hnone : (resolveList st.active_triggers m t a now).1.find? (matchKeyB m t) = none := by
        rw [List.find?_eq_none]
        intro x hx hpx
        have := List.countP_eq_zero.mp hc0 x hx
        exact this hpx
      simp [resolve_trigger, resolveList_snd, hnone]

/-- C6 (witness): on a store with exactly one unresolved trigger for key
(M, T), resolving twice makes the second call return false. -/
theorem spec_C6_witness :
    countUnresolvedKey oneActiveStore.active_triggers
      (SValue.str ("M")) (SValue.str ("T")) ≤ 1 ∧
    (resolve_trigger
      (resolve_trigger oneActiveStore (SValue.str ("M")) (SValue.str ("T"))
        (SValue.str ("fixed")) 1).1
      (SValue.str ("M")) (SValue.str ("T")) (SValue.str ("fixed")) 1).2 = false :=
  ⟨by decide,
    (spec_C6_resolve_correct oneActiveStore (SValue.str ("M")) (SValue.str ("T"))
      (SValue.str ("fixed")) 1).2.2.2.2 (by decide)⟩

/-- C7: re-processing the same record (with a machine identifier) while the
triggers it created are unresolved creates nothing: the second call finds
an existing unresolved trigger for every matched rule, leaves the system
unchanged, and reports zero newly created triggers. -/
theorem spec_C7_reprocess_creates_nothing (st : AndonSystem) (data : Record)
    (now now2 : Int) (v : SValue)
    (hv : Record.lookup data ("machine_id") = some v) :
    process_sensor_data (process_sensor_data st data now).1 data now2 =
      ((process_sensor_data st data now).1, some []) ∧
    (∀ r ∈ evaluate_sensor_data (process_sensor_data st data now).1 data,
      (get_active_trigger (process_sensor_data st data now).1.active_triggers v
        (SValue.str r.name)).isSome = true) := by
  have hrules : (process_sensor_data st data now).1.alert_rules = st.alert_rules :=
    processLoop_alert_rules data now _ st []
  have heval : evaluate_sensor_data (process_sensor_data st data now).1 data =
      evaluate_sensor_data st data :=
    evaluate_sensor_data_rules_eq hrules data
  have hactive : ∀ r ∈ evaluate_sensor_data st data,
      (get_active_trigger (process_sensor_data st data now).1.active_triggers v
        (SValue.str r.name)).isSome = true := by
    intro r hr
    exact processLoop_active_after data now v hv
      (evaluate_sensor_data st data) st [] r hr
  constructor
  · rw [process_sensor_data, heval]
    exact processLoop_noop data now2 v hv _ _ [] hactive
  · intro r hr
    rw [heval] at hr
    exact hactive r hr

/-- C7 (witness): Scenario B — submitting the Scenario A record a second
time produces zero new triggers and leaves the system unchanged. -/
theorem spec_C7_witness :
    Record.lookup scenarioRecord ("machine_id") = some (SValue.str ("VF2_01")) ∧
    process_sensor_data (process_sensor_data initSystem scenarioRecord 0).1
        scenarioRecord 1 =
      ((process_sensor_data initSystem scenarioRecord 0).1, some []) :=
  ⟨by decide,
    (spec_C7_reprocess_creates_nothing initSystem scenarioRecord 0 1
      (SValue.str ("VF2_01")) (by decide)).1⟩

/-- C8: for every history window the statistics are consistent: the
resolution rate equals the resolved count divided by the total count (and
is 0 when the total is 0), and each of the per-severity, per-machine and
per-type count maps sums to the total. -/
theorem spec_C8_statistics_consistent (st : AndonSystem) (days now : Int) :
    (get_trigger_statistics st days now).resolution_rate =
      (((get_trigger_history st none days now).filter
        (fun tr => tr.resolved)).length : ℚ) /
        ((get_trigger_statistics st days now).total_triggers : ℚ) ∧
    ((get_trigger_statistics st days now).total_triggers = 0 →
      (get_trigger_statistics st days now).resolution_rate = 0) ∧
    sumVals (get_trigger_statistics st days now).by_severity =
      (get_trigger_statistics st days now).total_triggers ∧
    sumVals (get_trigger_statistics st days now).by_machine =
      (get_trigger_statistics st days now).total_triggers ∧
    sumVals (get_trigger_statistics st days now).by_type =
      (get_trigger_statistics st days now).total_triggers := by
  have htot : (get_trigger_statistics st days now).total_triggers =
      (get_trigger_history st none days now).length := rfl
  have hrate : (get_trigger_statistics st days now).resolution_rate =
      if (get_trigger_history st none days now).isEmpty then 0 else
        (((get_trigger_history st none days now).filter
          (fun tr => tr.resolved)).length : ℚ) /
          ((get_trigger_history st none days now).length : ℚ) := rfl
  refine ⟨?_, ?_, ?_, ?_, ?_⟩
  · rw [hrate, htot]
    by_cases hempty : (get_trigger_history st none days now).isEmpty
    · rw [if_pos hempty]
      have h0 : get_trigger_history st none days now = [] :=
        List.isEmpty_iff.mp hempty
      rw [h0]
      simp
    · rw [if_neg hempty]
  · intro h0
    rw [htot] at h0
    rw [hrate, if_pos]
    rw [List.isEmpty_iff]
    exact List.length_eq_zero.mp h0
  · exact sumVals_countDict _ _
  · exact sumVals_countDict _ _
  · exact sumVals_countDict _ _

/-- C8 (witness): on the empty initial store the total is 0 and the
resolution rate is 0. -/
theorem spec_C8_witness :
    (get_trigger_statistics initSystem 7 0).resolution_rate = 0 :=
  (spec_C8_statistics_consistent initSystem 7 0).2.1 (by decide)

/-- C1 (counterexample): the at-most-one-unresolved-per-key invariant does
not hold over all sequences of the four public operations from the empty
store — two direct `create_andon_trigger` calls with the same key leave
two unresolved triggers for that key (an `import_triggers` of a snapshot
repeating an unresolved key does the same). -/
theorem spec_C1_counterexample :
    ¬ (∀ ops : List Op, atMostOneUnresolved (applyOps initSystem ops)) := by
  intro h
  have h2 := h [Op.createOp (SValue.str ("M")) (SValue.str ("T"))
      (SValue.str ("low")) (SValue.str ("d")) 0,
    Op.createOp (SValue.str ("M")) (SValue.str ("T"))
      (SValue.str ("low")) (SValue.str ("d")) 0]
    (SValue.str ("M")) (SValue.str ("T"))
  have h3 : countUnresolvedKey
      (applyOps initSystem [Op.createOp (SValue.str ("M")) (SValue.str ("T"))
          (SValue.str ("low")) (SValue.str ("d")) 0,
        Op.createOp (SValue.str ("M")) (SValue.str ("T"))
          (SValue.str ("low")) (SValue.str ("d")) 0]).active_triggers
      (SValue.str ("M")) (SValue.str ("T")) = 2 := by decide
  omega

/-- C1 (amended): restricted to the operations that guard the store —
`process_sensor_data` and `resolve_trigger` — every sequence from the empty
initial store keeps at most one unresolved trigger per
(machine, trigger-type) key. -/
theorem spec_C1_invariant_proc_resolve (ops : List Op)
    (hops : ∀ op ∈ ops, op.isProcOrResolve = true) :
    atMostOneUnresolved (applyOps initSystem ops) := by
  have hbase : atMostOneUnresolved initSystem := by
    intro m t
    have h0 : initSystem.active_triggers = [] := rfl
    rw [h0]
    simp [countUnresolvedKey]
  have hstep : ∀ (op : Op) (st : AndonSystem), op.isProcOrResolve = true →
      atMostOneUnresolved st → atMostOneUnresolved (applyOp st op) := by
    intro op st hop hinv
    cases op with
    | procData data now =>
      intro m t
      exact processLoop_inv data now (evaluate_sensor_data st data) st [] hinv m t
    | resolveOp m2 t2 a now =>
      intro m t
      have hle := resolveList_countP_le st.active_triggers m2 t2 a m t now
      calc countUnresolvedKey (applyOp st (Op.resolveOp m2 t2 a now)).active_triggers m t
          = countUnresolvedKey (resolveList st.active_triggers m2 t2 a now).1 m t := rfl
        _ ≤ countUnresolvedKey st.active_triggers m t := hle
        _ ≤ 1 := hinv m t
    | importOp raws => simp [Op.isProcOrResolve] at hop
    | createOp m2 t2 s d now => simp [Op.isProcOrResolve] at hop
  suffices h : ∀ (ops2 : List Op) (st : AndonSystem), atMostOneUnresolved st →
      (∀ op ∈ ops2, op.isProcOrResolve = true) →
      atMostOneUnresolved (applyOps st ops2) by
    exact h ops initSystem hbase hops
  intro ops2
  induction ops2 with
  | nil =>
    intro st hst _
    exact hst
  | cons op rest ih =>
    intro st hst hall
    rw [applyOps, List.foldl_cons]
    exact ih (applyOp st op) (hstep op st (hall op (by simp)) hst)
      (fun o ho => hall o (List.mem_cons_of_mem op ho))

/-- C1 (witness): the invariant after processing the Scenario A record and
resolving its trigger. -/
theorem spec_C1_witness :
    (∀ op ∈ ([Op.procData scenarioRecord 0,
        Op.resolveOp (SValue.str ("VF2_01")) (SValue.str ("Critical Vibration"))
          (SValue.str ("fixed")) 1] : List Op), op.isProcOrResolve = true) ∧
    atMostOneUnresolved (applyOps initSystem
      [Op.procData scenarioRecord 0,
       Op.resolveOp (SValue.str ("VF2_01")) (SValue.str ("Critical Vibration"))
         (SValue.str ("fixed")) 1]) :=
  ⟨by decide, spec_C1_invariant_proc_resolve _ (by decide)⟩
